import Mathlib

/-!
Shallow embedding of the conversation-orchestration loop of tk103331/eino-cli.

The embedded code is the agent-UI variant of the loop,
`ChatApp.processConversation` and `ChatApp.executeToolCalls` in
`src/ui/agent/app.go` (the chat-UI variant `src/ui/chat/app.go` is embedded
separately where a claim depends on it), together with the message builders
of `AgentApp.sendMessage`, `ChatApp.sendMessage` and
`ReactAgent.ChatStream`.

Modelling conventions:
- `program.Send(msg)` calls become entries of an event trace, in call order;
  `StreamChunkMsg`, `ResponseMsg` and `ErrorMsg` are the three constructors.
- the eino model stream is scripted: round `i` of a run behaves as
  `script i`, either an error from `Stream` itself or a chunk list followed
  by the error value of the final `Recv` (Go streams always end in an error;
  "EOF" and the closed-pipe text are the normal endings the code tests for).
- the Go `for iteration < maxIterations` loop is fuel recursion with the
  invariant `fuel + iteration = maxIterations`; `iteration` is incremented
  exactly once per round, right before the (scripted) `Stream` call, exactly
  as in the Go code, so the final `iteration` counts the model-stream calls.
- Go `return` inside the loop skips the post-loop iteration check while
  `break` and normal exit reach it; `ExitKind` records which one happened.
- tool instances are modelled from the point where `executeToolCalls` has
  built its name-to-instance map (`toolMap`); `InvokableRun(ctx, args)`
  becomes an `args → Except err result` function. Construction failures of
  `createTools`/`Info`, which no claim exercises, are outside the model.
- Go `len`/byte slicing on strings is modelled with `String.length` and
  `String.take`; on the ASCII payloads the claims quantify over they agree.
-/

namespace EinoCli

/-- Role of a chat message, mirroring `schema.RoleType` as used by the app. -/
inductive Role
  | system
  | user
  | assistant
  | tool
deriving DecidableEq, Repr

/-- One requested tool invocation, mirroring `schema.ToolCall` (its `ID` and
the `Function.Name` / `Function.Arguments` fields the app reads). -/
structure ToolCall where
  id : String
  name : String
  arguments : String
deriving DecidableEq, Repr

/-- A chat message, mirroring the fields of `schema.Message` the app uses. -/
structure Message where
  role : Role
  content : String
  toolCalls : List ToolCall := []
  toolCallId : String := ""
  toolName : String := ""
deriving DecidableEq, Repr

/-- `schema.SystemMessage`. -/
def systemMessage (content : String) : Message :=
  { role := Role.system, content := content }

/-- `schema.UserMessage`. -/
def userMessage (content : String) : Message :=
  { role := Role.user, content := content }

/-- `schema.ToolMessage(content, id, schema.WithToolName(name))`. -/
def toolMessage (content : String) (id : String) (name : String) : Message :=
  { role := Role.tool, content := content, toolCallId := id, toolName := name }

/-- One `program.Send` call: `StreamChunkMsg`, `ResponseMsg` or `ErrorMsg`. -/
inductive Event
  | streamChunk (text : String)
  | response (text : String)
  | error (text : String)
deriving DecidableEq, Repr

/-- A tool instance after `createTools`: `InvokableRun(ctx, arguments)`
returning either an error or a result string. -/
def ToolFn : Type := String → Except String String

/-- The name-to-instance map `toolMap` of `executeToolCalls`. -/
def Dispatcher : Type := List (String × ToolFn)

/-- Message text of `ErrorMsg("达到最大迭代次数，停止对话")`. -/
def iterationLimitMsg : String := "达到最大迭代次数，停止对话"

/-- History text for an unresolved tool: `fmt.Sprintf("工具 '%s' 不存在", toolName)`. -/
def toolNotExistText (name : String) : String :=
  "工具 '" ++ name ++ "' 不存在"

/-- Display text for an unresolved tool (agent variant only):
`fmt.Sprintf("❌ 工具 '%s' 不存在\n", toolName)`. -/
def toolNotExistDisplay (name : String) : String :=
  "❌ 工具 '" ++ name ++ "' 不存在\n"

/-- Display text announcing a tool call:
`fmt.Sprintf("\n🔧 调用工具: %s\n参数: %s\n", toolName, arguments)`. -/
def toolStartText (name : String) (arguments : String) : String :=
  "\n🔧 调用工具: " ++ name ++ "\n参数: " ++ arguments ++ "\n"

/-- History text for a failed tool run: `fmt.Sprintf("工具执行失败: %v", err)`. -/
def toolFailText (err : String) : String :=
  "工具执行失败: " ++ err

/-- Display text for a failed tool run:
`fmt.Sprintf("❌ 工具执行失败: %v\n", err)`. -/
def toolFailDisplay (err : String) : String :=
  "❌ 工具执行失败: " ++ err ++ "\n"

/-- Display text for a successful tool run:
`fmt.Sprintf("✅ 工具执行结果: %s\n", displayResult)`. -/
def toolOkDisplay (result : String) : String :=
  "✅ 工具执行结果: " ++ result ++ "\n"

/-- The display truncation of `src/ui/agent/app.go` lines 508-511:
`if len(result) > 500 { displayResult = result[:500] + "...(结果已截断)" }`. -/
def displayResult (result : String) : String :=
  if result.length > 500 then result.take 500 ++ "...(结果已截断)" else result

/-- One iteration of the `for _, toolCall := range toolCalls` body of the
agent-variant `executeToolCalls` (src/ui/agent/app.go lines 470-514): the
Tool message appended to `toolMessages` (none when the call is skipped for
an empty name) and the `program.Send` events, in call order. -/
def execCall (toolMap : Dispatcher) (tc : ToolCall) : Option Message × List Event :=
  if tc.name = "" then (none, [])
  else
    match toolMap.lookup tc.name with
    | none =>
        (some (toolMessage (toolNotExistText tc.name) tc.id tc.name),
         [Event.streamChunk (toolNotExistDisplay tc.name)])
    | some f =>
        match f tc.arguments with
        | Except.error e =>
            (some (toolMessage (toolFailText e) tc.id tc.name),
             [Event.streamChunk (toolStartText tc.name tc.arguments),
              Event.streamChunk (toolFailDisplay e)])
        | Except.ok result =>
            (some (toolMessage result tc.id tc.name),
             [Event.streamChunk (toolStartText tc.name tc.arguments),
              Event.streamChunk (toolOkDisplay (displayResult result))])

/-- The agent-variant `executeToolCalls` from the point where `toolMap` is
built: the Tool messages returned and the events sent, call by call in list
order. -/
def executeToolCalls (toolMap : Dispatcher) : List ToolCall → List Message × List Event
  | [] => ([], [])
  | tc :: rest =>
      let r := execCall toolMap tc
      let rs := executeToolCalls toolMap rest
      (r.1.toList ++ rs.1, r.2 ++ rs.2)

/-- One iteration of the loop body of the chat-variant `executeToolCalls`
(src/ui/chat/app.go lines 207-245): no empty-name skip, no display event for
an unresolved tool, and the success display carries the full result text. -/
def chatExecCall (toolMap : Dispatcher) (tc : ToolCall) : Message × List Event :=
  match toolMap.lookup tc.name with
  | none => (toolMessage (toolNotExistText tc.name) tc.id tc.name, [])
  | some f =>
      match f tc.arguments with
      | Except.error e =>
          (toolMessage (toolFailText e) tc.id tc.name,
           [Event.streamChunk (toolStartText tc.name tc.arguments),
            Event.streamChunk (toolFailDisplay e)])
      | Except.ok result =>
          (toolMessage result tc.id tc.name,
           [Event.streamChunk (toolStartText tc.name tc.arguments),
            Event.streamChunk (toolOkDisplay result)])

/-- The chat-variant `executeToolCalls` from the point where `toolMap` is
built. -/
def chatExecuteToolCalls (toolMap : Dispatcher) : List ToolCall → List Message × List Event
  | [] => ([], [])
  | tc :: rest =>
      let r := chatExecCall toolMap tc
      let rs := chatExecuteToolCalls toolMap rest
      (r.1 :: rs.1, r.2 ++ rs.2)

/-- State of the inner `for { chunk, err := streamReader.Recv() ... }` loop
of the agent-variant `processConversation`: the `fullContent` buffer, the
`allToolCalls` accumulator, the last received chunk (`assistantMessage`) and
the `StreamChunkMsg` events sent so far. -/
structure ReadState where
  fullContent : String
  allToolCalls : List ToolCall
  lastChunk : Option Message
  events : List Event
deriving Repr

/-- Initial `ReadState` of a round. -/
def initReadState : ReadState :=
  { fullContent := "", allToolCalls := [], lastChunk := none, events := [] }

/-- The inner receive loop over the chunks the stream yields before its final
error: accumulate content, send each chunk's content, append each chunk's
nonempty `ToolCalls` to `allToolCalls`, remember the last chunk. -/
def readChunks : ReadState → List Message → ReadState
  | st, [] => st
  | st, c :: cs =>
      readChunks
        { fullContent := st.fullContent ++ c.content
          allToolCalls :=
            if c.toolCalls.length > 0 then st.allToolCalls ++ c.toolCalls
            else st.allToolCalls
          lastChunk := some c
          events := st.events ++ [Event.streamChunk c.content] } cs

/-- What the scripted model stream does on one round: either `Stream` itself
returns an error, or `Recv` yields `chunks` and then returns `readErr` (Go
streams always end in an error; "EOF" and the closed-pipe text are normal). -/
inductive RoundScript
  | streamErr (e : String)
  | stream (chunks : List Message) (readErr : String)

/-- Whether a final `Recv` error is fatal for the turn: the code treats
exactly "EOF" and "io: read/write on closed pipe" as normal stream end. -/
def fatalReadErr (e : String) : Bool :=
  e ≠ "EOF" && e ≠ "io: read/write on closed pipe"

/-- How the Go loop was left: `returned` for a `return` inside the loop
(which skips the post-loop iteration check), `broke` for the `break` on a
round without tool calls, `exhausted` when `iteration < maxIterations`
failed. -/
inductive ExitKind
  | returned
  | broke
  | exhausted
deriving DecidableEq, Repr

/-- Result of a turn: the event trace, the final `messages` history, the
final value of `iteration` (one increment per model-stream call) and how the
loop exited. -/
structure LoopResult where
  events : List Event
  messages : List Message
  iteration : Nat
  exit : ExitKind
deriving DecidableEq, Repr

/-- `maxIterations := 10` of both loop variants. -/
def maxIterations : Nat := 10

/-- The `for iteration < maxIterations` loop of the agent-variant
`processConversation` (src/ui/agent/app.go lines 366-442), as fuel recursion
with `fuel + iteration = maxIterations`. Each round consults the script once
(the `Stream` call), reads the chunks, and either returns on a fatal error,
breaks when no tool calls were finalized, or appends the assistant message
and the tool results and continues. -/
def loopAux (toolMap : Dispatcher) (script : Nat → RoundScript) :
    Nat → Nat → List Message → List Event → LoopResult
  | 0, it, msgs, evs => ⟨evs, msgs, it, ExitKind.exhausted⟩
  | fuel + 1, it, msgs, evs =>
      match script it with
      | RoundScript.streamErr e =>
          ⟨evs ++ [Event.error ("AI响应错误: " ++ e)], msgs, it + 1, ExitKind.returned⟩
      | RoundScript.stream chunks readErr =>
          let st := readChunks initReadState chunks
          if fatalReadErr readErr then
            ⟨evs ++ st.events ++ [Event.error ("流式响应错误: " ++ readErr)],
              msgs, it + 1, ExitKind.returned⟩
          else
            match st.lastChunk with
            | none =>
                ⟨evs ++ st.events ++
                    (if st.fullContent ≠ "" then [Event.response st.fullContent] else []),
                  msgs, it + 1, ExitKind.broke⟩
            | some last =>
                let asst :=
                  if st.allToolCalls.length > 0 then
                    { last with toolCalls := st.allToolCalls }
                  else last
                if asst.toolCalls.length > 0 then
                  let tr := executeToolCalls toolMap asst.toolCalls
                  loopAux toolMap script fuel (it + 1)
                    (msgs ++ [asst] ++ tr.1)
                    (evs ++ st.events ++
                      (if st.fullContent ≠ "" then [Event.response st.fullContent] else []) ++
                      tr.2)
                else
                  ⟨evs ++ st.events ++
                      (if st.fullContent ≠ "" then [Event.response st.fullContent] else []),
                    msgs, it + 1, ExitKind.broke⟩

/-- The agent-variant `processConversation`: run the loop from
`iteration = 0`, then — unless the loop `return`ed — send the iteration-limit
error when `iteration >= maxIterations` (src/ui/agent/app.go lines 444-446). -/
def processConversation (toolMap : Dispatcher) (script : Nat → RoundScript)
    (messages : List Message) : LoopResult :=
  let r := loopAux toolMap script maxIterations 0 messages []
  match r.exit with
  | ExitKind.returned => r
  | _ =>
      if r.iteration ≥ maxIterations then
        { r with events := r.events ++ [Event.error iterationLimitMsg] }
      else r

/-- The message list `AgentApp.sendMessage` builds for a turn
(src/ui/agent/app.go lines 119-128): an optional System message from the
agent config, then the newly submitted user text. -/
def sendMessageMessages (systemPrompt : String) (userText : String) : List Message :=
  (if systemPrompt ≠ "" then [systemMessage systemPrompt] else []) ++ [userMessage userText]

/-- The message list the chat-variant `sendMessage` builds
(src/ui/chat/app.go lines 99-101): just the new user message. -/
def chatSendMessages (userText : String) : List Message :=
  [userMessage userText]

/-- The message list `ReactAgent.ChatStream` builds
(src/agent/react.go lines 560-563): the configured system prompt and the
new prompt, nothing else. -/
def reactChatMessages (systemPrompt : String) (prompt : String) : List Message :=
  [systemMessage systemPrompt, userMessage prompt]

/-- Number of Assistant messages in a history. -/
def assistantCount (msgs : List Message) : Nat :=
  (msgs.filter fun m => m.role == Role.assistant).length

/-- Whether a round completes its stream normally and finalizes at least one
tool call (the condition under which the loop takes its tool branch). -/
def roundRequestsTool : RoundScript → Bool
  | RoundScript.streamErr _ => false
  | RoundScript.stream cs re =>
      !(fatalReadErr re) &&
      (match (readChunks initReadState cs).lastChunk with
       | none => false
       | some last =>
           !(readChunks initReadState cs).allToolCalls.isEmpty || !last.toolCalls.isEmpty)

section Lemmas

/-- Unfolding lemma: one round of the loop. -/
theorem loopAux_succ (toolMap : Dispatcher) (script : Nat → RoundScript)
    (fuel it : Nat) (msgs : List Message) (evs : List Event) :
    loopAux toolMap script (fuel + 1) it msgs evs =
      match script it with
      | RoundScript.streamErr e =>
          ⟨evs ++ [Event.error ("AI响应错误: " ++ e)], msgs, it + 1, ExitKind.returned⟩
      | RoundScript.stream chunks readErr =>
          let st := readChunks initReadState chunks
          if fatalReadErr readErr then
            ⟨evs ++ st.events ++ [Event.error ("流式响应错误: " ++ readErr)],
              msgs, it + 1, ExitKind.returned⟩
          else
            match st.lastChunk with
            | none =>
                ⟨evs ++ st.events ++
                    (if st.fullContent ≠ "" then [Event.response st.fullContent] else []),
                  msgs, it + 1, ExitKind.broke⟩
            | some last =>
                let asst :=
                  if st.allToolCalls.length > 0 then
                    { last with toolCalls := st.allToolCalls }
                  else last
                if asst.toolCalls.length > 0 then
                  let tr := executeToolCalls toolMap asst.toolCalls
                  loopAux toolMap script fuel (it + 1)
                    (msgs ++ [asst] ++ tr.1)
                    (evs ++ st.events ++
                      (if st.fullContent ≠ "" then [Event.response st.fullContent] else []) ++
                      tr.2)
                else
                  ⟨evs ++ st.events ++
                      (if st.fullContent ≠ "" then [Event.response st.fullContent] else []),
                    msgs, it + 1, ExitKind.broke⟩ := rfl

/-- A round whose `Stream` call fails makes the loop return at once. -/
theorem loopAux_streamErr (toolMap : Dispatcher) (script : Nat → RoundScript)
    (fuel it : Nat) (msgs : List Message) (evs : List Event) (e : String)
    (h : script it = RoundScript.streamErr e) :
    loopAux toolMap script (fuel + 1) it msgs evs =
      ⟨evs ++ [Event.error ("AI响应错误: " ++ e)], msgs, it + 1, ExitKind.returned⟩ := by
  rw [loopAux_succ, h]

/-- A round whose stream read ends in a fatal error makes the loop return
right after the chunks received so far. -/
theorem loopAux_fatalRead (toolMap : Dispatcher) (script : Nat → RoundScript)
    (fuel it : Nat) (msgs : List Message) (evs : List Event)
    (chunks : List Message) (e : String)
    (h : script it = RoundScript.stream chunks e) (hf : fatalReadErr e = true) :
    loopAux toolMap script (fuel + 1) it msgs evs =
      ⟨evs ++ (readChunks initReadState chunks).events ++
          [Event.error ("流式响应错误: " ++ e)],
        msgs, it + 1, ExitKind.returned⟩ := by
  rw [loopAux_succ, h]
  simp [hf]

/-- A `returned` loop result passes through `processConversation` unchanged. -/
theorem processConversation_returned (toolMap : Dispatcher) (script : Nat → RoundScript)
    (msgs : List Message) (r : LoopResult)
    (h : loopAux toolMap script maxIterations 0 msgs [] = r)
    (hr : r.exit = ExitKind.returned) :
    processConversation toolMap script msgs = r := by
  obtain ⟨evs', msgs', it', ex'⟩ := r
  change ex' = ExitKind.returned at hr
  subst hr
  unfold processConversation
  rw [h]

/-- The last chunk recorded by the receive loop is one of the chunks read
(or was already recorded before). -/
theorem readChunks_lastChunk_mem :
    ∀ (cs : List Message) (st : ReadState) (c : Message),
      (readChunks st cs).lastChunk = some c → c ∈ cs ∨ st.lastChunk = some c := by
  intro cs
  induction cs with
  | nil => intro st c h; exact Or.inr h
  | cons x xs ih =>
      intro st c h
      rcases ih _ _ h with h' | h'
      · exact Or.inl (List.mem_cons_of_mem x h')
      · cases h'
        exact Or.inl (List.mem_cons_self x xs)

/-- The `allToolCalls` accumulator ends as the concatenation, in arrival
order, of every chunk's tool-call fragment list. -/
theorem readChunks_allToolCalls :
    ∀ (cs : List Message) (st : ReadState),
      (readChunks st cs).allToolCalls = st.allToolCalls ++ cs.flatMap (fun c => c.toolCalls) := by
  intro cs
  induction cs with
  | nil => intro st; simp [readChunks]
  | cons x xs ih =>
      intro st
      rw [readChunks, ih]
      by_cases h : x.toolCalls.length > 0
      · simp [h]
      · have hx : x.toolCalls = [] := List.length_eq_zero.1 (by omega)
        simp [h, hx]

/-- A single tool call produces a Tool message (or is skipped), never an
Assistant message. -/
theorem assistantCount_execCall (toolMap : Dispatcher) (tc : ToolCall) :
    assistantCount (execCall toolMap tc).1.toList = 0 := by
  unfold execCall
  split
  · rfl
  · split
    · rfl
    · split
      · rfl
      · rfl

/-- `assistantCount` is additive over concatenation. -/
theorem assistantCount_append (a b : List Message) :
    assistantCount (a ++ b) = assistantCount a + assistantCount b := by
  simp [assistantCount, List.filter_append]

/-- `executeToolCalls` appends only Tool messages to the history, never an
Assistant message. -/
theorem assistantCount_executeToolCalls (toolMap : Dispatcher) :
    ∀ tcs : List ToolCall, assistantCount (executeToolCalls toolMap tcs).1 = 0 := by
  intro tcs
  induction tcs with
  | nil => rfl
  | cons tc rest ih =>
      rw [executeToolCalls]
      rw [assistantCount_append, ih, assistantCount_execCall]

/-- Event trace of `executeToolCalls`: the per-call event blocks, call by
call, in the order the calls were given. -/
theorem executeToolCalls_events (toolMap : Dispatcher) :
    ∀ tcs : List ToolCall,
      (executeToolCalls toolMap tcs).2 = tcs.flatMap (fun tc => (execCall toolMap tc).2) := by
  intro tcs
  induction tcs with
  | nil => rfl
  | cons tc rest ih =>
      rw [executeToolCalls, List.flatMap_cons, ← ih]

/-- Every event `executeToolCalls` sends is a `StreamChunkMsg`: tool
resolution and execution never send an `ErrorMsg` (or any terminal event). -/
theorem executeToolCalls_no_error (toolMap : Dispatcher) :
    ∀ (tcs : List ToolCall) (ev : Event), ev ∈ (executeToolCalls toolMap tcs).2 →
      ∃ s, ev = Event.streamChunk s := by
  intro tcs
  induction tcs with
  | nil => intro ev h; cases h
  | cons tc rest ih =>
      intro ev h
      rw [executeToolCalls] at h
      rcases List.mem_append.1 h with h' | h'
      · unfold execCall at h'
        split at h'
        · cases h'
        · split at h'
          · rcases List.mem_singleton.1 h' with rfl
            exact ⟨_, rfl⟩
          · split at h'
            · rcases List.mem_cons.1 h' with rfl | h''
              · exact ⟨_, rfl⟩
              · rcases List.mem_singleton.1 h'' with rfl
                exact ⟨_, rfl⟩
            · rcases List.mem_cons.1 h' with rfl | h''
              · exact ⟨_, rfl⟩
              · rcases List.mem_singleton.1 h'' with rfl
                exact ⟨_, rfl⟩
      · exact ih ev h'

/-- The iteration counter never goes down. -/
theorem loopAux_iteration_ge (toolMap : Dispatcher) (script : Nat → RoundScript) :
    ∀ (fuel it : Nat) (msgs : List Message) (evs : List Event),
      it ≤ (loopAux toolMap script fuel it msgs evs).iteration := by
  intro fuel
  induction fuel with
  | zero => intro it msgs evs; exact le_refl it
  | succ f ih =>
      intro it msgs evs
      rw [loopAux_succ]
      cases script it with
      | streamErr e => exact Nat.le_succ it
      | stream chunks re =>
          dsimp only
          split
          · exact Nat.le_succ it
          · split
            · exact Nat.le_succ it
            · split <;> split
              <;> first
                | exact Nat.le_of_succ_le (ih (it + 1) _ _)
                | exact Nat.le_succ it

/-- The iteration counter is bounded by the fuel of the loop. -/
theorem loopAux_iteration_le (toolMap : Dispatcher) (script : Nat → RoundScript) :
    ∀ (fuel it : Nat) (msgs : List Message) (evs : List Event),
      (loopAux toolMap script fuel it msgs evs).iteration ≤ it + fuel := by
  intro fuel
  induction fuel with
  | zero => intro it msgs evs; exact Nat.le_refl it
  | succ f ih =>
      intro it msgs evs
      rw [loopAux_succ]
      cases script it with
      | streamErr e =>
          show it + 1 ≤ it + (f + 1)
          omega
      | stream chunks re =>
          dsimp only
          split
          · show it + 1 ≤ it + (f + 1)
            omega
          · split
            · show it + 1 ≤ it + (f + 1)
              omega
            · split <;> split
              <;> first
                | exact le_trans (ih (it + 1) _ _) (by omega)
                | (show it + 1 ≤ it + (f + 1); omega)

/-- A round on which `roundRequestsTool` holds makes the loop take its tool
branch: it appends one assistant-role message (the last chunk, carrying the
finalized tool calls) and the tool results, and continues. -/
theorem loopAux_toolRound_step (toolMap : Dispatcher) (script : Nat → RoundScript)
    (f it : Nat) (msgs : List Message) (evs : List Event)
    (h : roundRequestsTool (script it) = true) :
    ∃ (cs : List Message) (re : String) (last asst : Message) (evs1 : List Event),
      script it = RoundScript.stream cs re ∧
      (readChunks initReadState cs).lastChunk = some last ∧
      asst.role = last.role ∧ asst.toolCalls ≠ [] ∧
      loopAux toolMap script (f + 1) it msgs evs =
        loopAux toolMap script f (it + 1)
          (msgs ++ [asst] ++ (executeToolCalls toolMap asst.toolCalls).1)
          (evs ++ evs1 ++ (executeToolCalls toolMap asst.toolCalls).2) := by
  cases hs : script it with
  | streamErr e => rw [hs] at h; simp [roundRequestsTool] at h
  | stream cs re =>
      rw [hs] at h
      simp only [roundRequestsTool] at h
      rw [Bool.and_eq_true] at h
      obtain ⟨h1, h2⟩ := h
      have hfatal : fatalReadErr re = false := by
        cases hfe : fatalReadErr re
        · rfl
        · rw [hfe] at h1; cases h1
      cases hl : (readChunks initReadState cs).lastChunk with
      | none => rw [hl] at h2; cases h2
      | some last =>
          rw [hl] at h2
          dsimp only at h2
          rw [Bool.or_eq_true] at h2
          refine ⟨cs, re, last,
            (if (readChunks initReadState cs).allToolCalls.length > 0 then
              { last with toolCalls := (readChunks initReadState cs).allToolCalls }
            else last),
            ((readChunks initReadState cs).events ++
              (if (readChunks initReadState cs).fullContent ≠ "" then
                [Event.response (readChunks initReadState cs).fullContent]
              else [])), rfl, hl, ?_, ?_, ?_⟩
          · split
            · rfl
            · rfl
          · split
            · rename_i hgt
              simp only [Message.toolCalls]
              intro hc
              rw [hc] at hgt
              cases hgt
            · rename_i hng
              rcases h2 with h2 | h2
              · exfalso
                apply hng
                have : (readChunks initReadState cs).allToolCalls ≠ [] := by
                  intro hc
                  rw [hc] at h2
                  cases h2
                exact List.length_pos.2 this
              · intro hc
                rw [hc] at h2
                cases h2
          · have hgt :
                (if (readChunks initReadState cs).allToolCalls.length > 0 then
                    { last with toolCalls := (readChunks initReadState cs).allToolCalls }
                  else last).toolCalls.length > 0 := by
              split
              · rename_i hgt'
                simpa using hgt'
              · rename_i hng
                rcases h2 with h2 | h2
                · exfalso
                  apply hng
                  apply List.length_pos.2
                  intro hc
                  rw [hc] at h2
                  cases h2
                · apply List.length_pos.2
                  intro hc
                  rw [hc] at h2
                  cases h2
            rw [loopAux_succ, hs]
            simp only [hl, hfatal, Bool.false_eq_true, if_false]
            rw [if_pos hgt]
            simp [List.append_assoc]

/-- Fields of `processConversation` other than the event trace are exactly
those of the loop: the final check may only add the limit error event. -/
theorem processConversation_fields (toolMap : Dispatcher) (script : Nat → RoundScript)
    (msgs : List Message) :
    (processConversation toolMap script msgs).messages =
      (loopAux toolMap script maxIterations 0 msgs []).messages ∧
    (processConversation toolMap script msgs).iteration =
      (loopAux toolMap script maxIterations 0 msgs []).iteration ∧
    (processConversation toolMap script msgs).exit =
      (loopAux toolMap script maxIterations 0 msgs []).exit := by
  unfold processConversation
  rcases hr : loopAux toolMap script maxIterations 0 msgs [] with ⟨evs', msgs', it', ex'⟩
  cases ex' <;> dsimp only
  · exact ⟨rfl, rfl, rfl⟩
  · split <;> exact ⟨rfl, rfl, rfl⟩
  · split <;> exact ⟨rfl, rfl, rfl⟩

/-- A loop that did not `return` and used up its iteration budget is followed
by the iteration-limit error event. -/
theorem processConversation_not_returned (toolMap : Dispatcher) (script : Nat → RoundScript)
    (msgs : List Message)
    (hex : (loopAux toolMap script maxIterations 0 msgs []).exit ≠ ExitKind.returned)
    (hit : (loopAux toolMap script maxIterations 0 msgs []).iteration ≥ maxIterations) :
    (processConversation toolMap script msgs).events =
      (loopAux toolMap script maxIterations 0 msgs []).events ++
        [Event.error iterationLimitMsg] := by
  unfold processConversation
  rcases hr : loopAux toolMap script maxIterations 0 msgs [] with ⟨evs', msgs', it', ex'⟩
  rw [hr] at hex hit
  cases ex'
  · exact absurd rfl hex
  · dsimp only
    rw [if_pos hit]
  · dsimp only
    rw [if_pos hit]

/-- If every remaining round finalizes at least one tool call, the loop
consumes all its fuel: it exits by exhausting the iteration budget, with one
model-stream round per unit of fuel. -/
theorem loopAux_allTools (toolMap : Dispatcher) (script : Nat → RoundScript) :
    ∀ (fuel it : Nat) (msgs : List Message) (evs : List Event),
      (∀ i, it ≤ i → i < it + fuel → roundRequestsTool (script i) = true) →
      (loopAux toolMap script fuel it msgs evs).exit = ExitKind.exhausted ∧
      (loopAux toolMap script fuel it msgs evs).iteration = it + fuel := by
  intro fuel
  induction fuel with
  | zero => intro it msgs evs _; exact ⟨rfl, rfl⟩
  | succ f ih =>
      intro it msgs evs h
      obtain ⟨cs, re, last, asst, evs1, hs, hl, hrole, htc, heq⟩ :=
        loopAux_toolRound_step toolMap script f it msgs evs
          (h it (le_refl it) (by omega))
      rw [heq]
      have h' := ih (it + 1) (msgs ++ [asst] ++ (executeToolCalls toolMap asst.toolCalls).1)
        (evs ++ evs1 ++ (executeToolCalls toolMap asst.toolCalls).2)
        (fun i h1 h2 => h i (by omega) (by omega))
      exact ⟨h'.1, by rw [h'.2]; omega⟩

/-- A single assistant-role message counts once. -/
theorem assistantCount_singleton (m : Message) (h : m.role = Role.assistant) :
    assistantCount [m] = 1 := by
  simp [assistantCount, h]

/-- Every chunk a script streams carries the assistant role (as the eino
model stream does in the Go code). -/
def scriptChunksAssistant (script : Nat → RoundScript) : Prop :=
  ∀ i cs re, script i = RoundScript.stream cs re → ∀ c ∈ cs, c.role = Role.assistant

/-- Accounting invariant of the loop: every round that takes the tool branch
appends exactly one Assistant message, and a round that ends the turn
(`return` or `break`) appends none. So on an exhausted exit the appended
Assistant messages equal the rounds run, otherwise they are one fewer. -/
theorem loopAux_assistantCount (toolMap : Dispatcher) (script : Nat → RoundScript)
    (hscript : scriptChunksAssistant script) :
    ∀ (fuel it : Nat) (msgs : List Message) (evs : List Event),
      ((loopAux toolMap script fuel it msgs evs).exit = ExitKind.exhausted →
        assistantCount (loopAux toolMap script fuel it msgs evs).messages + it =
          assistantCount msgs + (loopAux toolMap script fuel it msgs evs).iteration) ∧
      ((loopAux toolMap script fuel it msgs evs).exit ≠ ExitKind.exhausted →
        assistantCount (loopAux toolMap script fuel it msgs evs).messages + it + 1 =
          assistantCount msgs + (loopAux toolMap script fuel it msgs evs).iteration) := by
  intro fuel
  induction fuel with
  | zero =>
      intro it msgs evs
      exact ⟨fun _ => rfl, fun h => absurd rfl h⟩
  | succ f ih =>
      intro it msgs evs
      rw [loopAux_succ]
      cases hs : script it with
      | streamErr e =>
          refine ⟨fun h => ?_, fun _ => ?_⟩
          · cases h
          · show assistantCount msgs + it + 1 = assistantCount msgs + (it + 1)
            omega
      | stream chunks re =>
          dsimp only
          by_cases hf : fatalReadErr re = true
          · rw [if_pos hf]
            refine ⟨fun h => ?_, fun _ => ?_⟩
            · cases h
            · show assistantCount msgs + it + 1 = assistantCount msgs + (it + 1)
              omega
          · rw [if_neg hf]
            cases hl : (readChunks initReadState chunks).lastChunk with
            | none =>
                refine ⟨fun h => ?_, fun _ => ?_⟩
                · cases h
                · show assistantCount msgs + it + 1 = assistantCount msgs + (it + 1)
                  omega
            | some last =>
                have hlast : last.role = Role.assistant := by
                  rcases readChunks_lastChunk_mem chunks initReadState last hl with hm | hm
                  · exact hscript it chunks re hs last hm
                  · cases hm
                dsimp only
                by_cases hA : (readChunks initReadState chunks).allToolCalls.length > 0
                · rw [if_pos hA]
                  by_cases hB :
                      ({ last with
                          toolCalls :=
                            (readChunks initReadState chunks).allToolCalls }).toolCalls.length > 0
                  · rw [if_pos hB]
                    constructor
                    · intro h
                      have h1 := (ih (it + 1) _ _).1 h
                      rw [assistantCount_append, assistantCount_append,
                        assistantCount_executeToolCalls,
                        assistantCount_singleton
                          { last with
                              toolCalls := (readChunks initReadState chunks).allToolCalls }
                          hlast] at h1
                      omega
                    · intro h
                      have h1 := (ih (it + 1) _ _).2 h
                      rw [assistantCount_append, assistantCount_append,
                        assistantCount_executeToolCalls,
                        assistantCount_singleton
                          { last with
                              toolCalls := (readChunks initReadState chunks).allToolCalls }
                          hlast] at h1
                      omega
                  · rw [if_neg hB]
                    refine ⟨fun h => ?_, fun _ => ?_⟩
                    · cases h
                    · show assistantCount msgs + it + 1 = assistantCount msgs + (it + 1)
                      omega
                · rw [if_neg hA]
                  by_cases hB : last.toolCalls.length > 0
                  · rw [if_pos hB]
                    constructor
                    · intro h
                      have h1 := (ih (it + 1) _ _).1 h
                      rw [assistantCount_append, assistantCount_append,
                        assistantCount_executeToolCalls,
                        assistantCount_singleton last hlast] at h1
                      omega
                    · intro h
                      have h1 := (ih (it + 1) _ _).2 h
                      rw [assistantCount_append, assistantCount_append,
                        assistantCount_executeToolCalls,
                        assistantCount_singleton last hlast] at h1
                      omega
                  · rw [if_neg hB]
                    refine ⟨fun h => ?_, fun _ => ?_⟩
                    · cases h
                    · show assistantCount msgs + it + 1 = assistantCount msgs + (it + 1)
                      omega

/-- Any round with fuel left increments the iteration counter at least once. -/
theorem loopAux_iteration_succ (toolMap : Dispatcher) (script : Nat → RoundScript)
    (f it : Nat) (msgs : List Message) (evs : List Event) :
    it + 1 ≤ (loopAux toolMap script (f + 1) it msgs evs).iteration := by
  rw [loopAux_succ]
  cases script it with
  | streamErr e => exact le_refl _
  | stream chunks re =>
      dsimp only
      split
      · exact le_refl _
      · split
        · exact le_refl _
        · split <;> split
          <;> first
            | exact loopAux_iteration_ge toolMap script _ (it + 1) _ _
            | exact le_refl _

/-- A first round that finalizes tool calls never ends the turn: a second
model-stream round always happens. -/
theorem processConversation_second_round (toolMap : Dispatcher)
    (script : Nat → RoundScript) (msgs0 : List Message)
    (h : roundRequestsTool (script 0) = true) :
    2 ≤ (processConversation toolMap script msgs0).iteration := by
  obtain ⟨_, hi, _⟩ := processConversation_fields toolMap script msgs0
  rw [hi]
  obtain ⟨cs, re, last, asst, evs1, hs, hl, hrole, htc, heq⟩ :=
    loopAux_toolRound_step toolMap script 9 0 msgs0 [] h
  rw [show maxIterations = 9 + 1 from rfl, heq]
  exact loopAux_iteration_succ toolMap script 8 (0 + 1) _ _

end Lemmas

/-- C1: with a model adapter that finalizes a tool call on every round, the
turn performs exactly 10 model-stream rounds — `iteration`, incremented once
per `Stream` call, ends at exactly `maxIterations = 10`, so no 11th stream
call occurs — and the event trace ends with the iteration-limit error. -/
theorem c1_iteration_limit (toolMap : Dispatcher) (script : Nat → RoundScript)
    (msgs0 : List Message)
    (h : ∀ i, i < maxIterations → roundRequestsTool (script i) = true) :
    (processConversation toolMap script msgs0).iteration = maxIterations ∧
    (processConversation toolMap script msgs0).events =
      (loopAux toolMap script maxIterations 0 msgs0 []).events ++
        [Event.error iterationLimitMsg] := by
  obtain ⟨hex, hit⟩ := loopAux_allTools toolMap script maxIterations 0 msgs0 []
    (fun i _ h2 => h i (by omega))
  obtain ⟨_, hi, _⟩ := processConversation_fields toolMap script msgs0
  refine ⟨by rw [hi, hit]; exact Nat.zero_add _, ?_⟩
  exact processConversation_not_returned toolMap script msgs0
    (by rw [hex]; intro hc; cases hc) (by omega)

/-- A chunk carrying one complete tool-call request and no content. -/
def toolCallChunk : Message :=
  { role := Role.assistant, content := "",
    toolCalls := [⟨"call_1", "weather_api", "city=Paris"⟩] }

/-- A stub adapter that requests a tool call on every round. -/
def alwaysToolScript : Nat → RoundScript :=
  fun _ => RoundScript.stream [toolCallChunk] "EOF"

/-- C1 witness: the always-tool-calling stub adapter yields exactly 10
rounds and a final iteration-limit error event. -/
theorem c1_iteration_limit_witness :
    (processConversation [] alwaysToolScript [userMessage "q"]).iteration = maxIterations ∧
    (processConversation [] alwaysToolScript [userMessage "q"]).events =
      (loopAux [] alwaysToolScript maxIterations 0 [userMessage "q"] []).events ++
        [Event.error iterationLimitMsg] :=
  c1_iteration_limit [] alwaysToolScript [userMessage "q"] (fun _ _ => rfl)

/-- C5 (amended): at termination `iteration ≤ maxIterations`, and the number
of Assistant messages appended equals the number of rounds that took the
tool branch: all `iteration` rounds on an exhausted exit, and `iteration - 1`
rounds otherwise — the final content-only round appends no
`Assistant(fullContent, [])` message before ending the turn. -/
theorem c5_assistant_message_count (toolMap : Dispatcher) (script : Nat → RoundScript)
    (msgs0 : List Message) (hscript : scriptChunksAssistant script) :
    (processConversation toolMap script msgs0).iteration ≤ maxIterations ∧
    ((processConversation toolMap script msgs0).exit = ExitKind.exhausted →
      assistantCount (processConversation toolMap script msgs0).messages =
        assistantCount msgs0 + (processConversation toolMap script msgs0).iteration) ∧
    ((processConversation toolMap script msgs0).exit ≠ ExitKind.exhausted →
      assistantCount (processConversation toolMap script msgs0).messages + 1 =
        assistantCount msgs0 + (processConversation toolMap script msgs0).iteration) := by
  obtain ⟨hm, hi, he⟩ := processConversation_fields toolMap script msgs0
  obtain ⟨g1, g2⟩ := loopAux_assistantCount toolMap script hscript maxIterations 0 msgs0 []
  refine ⟨?_, fun h => ?_, fun h => ?_⟩
  · rw [hi]
    have := loopAux_iteration_le toolMap script maxIterations 0 msgs0 []
    omega
  · rw [he] at h
    have := g1 h
    rw [hm, hi]
    omega
  · rw [he] at h
    have := g2 h
    rw [hm, hi]
    omega

/-- A chunk with plain content and no tool calls. -/
def contentChunk : Message := { role := Role.assistant, content := "hi" }

/-- A stub adapter that answers with content only, on every round. -/
def contentScript : Nat → RoundScript :=
  fun _ => RoundScript.stream [contentChunk] "EOF"

/-- C5 witness: on a one-round content-only turn the bound and both counting
equations of the amended claim hold concretely. -/
theorem c5_assistant_message_count_witness :
    (processConversation [] contentScript [userMessage "q"]).iteration ≤ maxIterations ∧
    ((processConversation [] contentScript [userMessage "q"]).exit = ExitKind.exhausted →
      assistantCount (processConversation [] contentScript [userMessage "q"]).messages =
        assistantCount [userMessage "q"] +
          (processConversation [] contentScript [userMessage "q"]).iteration) ∧
    ((processConversation [] contentScript [userMessage "q"]).exit ≠ ExitKind.exhausted →
      assistantCount (processConversation [] contentScript [userMessage "q"]).messages + 1 =
        assistantCount [userMessage "q"] +
          (processConversation [] contentScript [userMessage "q"]).iteration) :=
  c5_assistant_message_count [] contentScript [userMessage "q"]
    (fun i cs re hc => by
      cases hc
      intro c hcm
      rcases List.mem_singleton.1 hcm with rfl
      rfl)

/-- C5 counterexample: a turn whose single round is content-only ends with
`iteration = 1`, yet zero Assistant messages were appended — the count does
not equal the final iteration value, and no `Assistant(fullContent, [])` is
appended before the terminal event. -/
theorem c5_counterexample :
    (processConversation [] contentScript [userMessage "q"]).iteration = 1 ∧
    assistantCount (processConversation [] contentScript [userMessage "q"]).messages = 0 ∧
    assistantCount (processConversation [] contentScript [userMessage "q"]).messages ≠
      (processConversation [] contentScript [userMessage "q"]).iteration := by
  decide

/-- C4: a model-stream failure — at the initial `Stream` call or on a read
before end-of-stream — in round 1 emits exactly one `ErrorMsg`, executes no
tool call, appends nothing: the history is exactly the initial message list. -/
theorem c4_stream_failure_aborts (toolMap : Dispatcher) (script : Nat → RoundScript)
    (msgs0 : List Message) (e : String) :
    (script 0 = RoundScript.streamErr e →
      processConversation toolMap script msgs0 =
        ⟨[Event.error ("AI响应错误: " ++ e)], msgs0, 1, ExitKind.returned⟩) ∧
    (∀ chunks, script 0 = RoundScript.stream chunks e → fatalReadErr e = true →
      processConversation toolMap script msgs0 =
        ⟨(readChunks initReadState chunks).events ++ [Event.error ("流式响应错误: " ++ e)],
          msgs0, 1, ExitKind.returned⟩) := by
  constructor
  · intro h
    exact processConversation_returned _ _ _ _
      (loopAux_streamErr toolMap script 9 0 msgs0 [] e h) rfl
  · intro chunks h hf
    exact processConversation_returned _ _ _ _
      (loopAux_fatalRead toolMap script 9 0 msgs0 [] chunks e h hf) rfl

/-- A stub adapter whose `Stream` call fails on every round. -/
def errScript : Nat → RoundScript := fun _ => RoundScript.streamErr "network down"

/-- C4 witness: a concrete round-1 `Stream` failure leaves the history at
exactly the original User message and emits one error event. -/
theorem c4_stream_failure_aborts_witness :
    processConversation [] errScript [userMessage "hi"] =
      ⟨[Event.error ("AI响应错误: " ++ "network down")], [userMessage "hi"], 1,
        ExitKind.returned⟩ :=
  (c4_stream_failure_aborts [] errScript [userMessage "hi"] "network down").1 rfl

/-- C10: every turn's model input is built from scratch: an optional System
message plus the newly submitted user text, in all three senders — no
Assistant or Tool message of an earlier turn ever appears in it. -/
theorem c10_fresh_turn_messages :
    (∀ sys txt m, m ∈ sendMessageMessages sys txt →
        m = systemMessage sys ∨ m = userMessage txt) ∧
    (∀ txt m, m ∈ chatSendMessages txt → m = userMessage txt) ∧
    (∀ sys p m, m ∈ reactChatMessages sys p →
        m = systemMessage sys ∨ m = userMessage p) := by
  refine ⟨fun sys txt m hm => ?_, fun txt m hm => ?_, fun sys p m hm => ?_⟩
  · unfold sendMessageMessages at hm
    rcases List.mem_append.1 hm with h | h
    · left
      by_cases hs : sys = ""
      · simp [hs] at h
      · simpa [hs] using h
    · right
      simpa using h
  · simpa [chatSendMessages] using hm
  · simpa [reactChatMessages] using hm

/-- C10 witness: at a concrete system prompt and user text, each member of
the built message list is the system message or the new user message. -/
theorem c10_fresh_turn_messages_witness :
    systemMessage "be brief" = systemMessage "be brief" ∨
      systemMessage "be brief" = userMessage "hello" :=
  c10_fresh_turn_messages.1 "be brief" "hello" (systemMessage "be brief") (by decide)

/-- A stub adapter requesting a tool call on rounds 1-9 and answering with
content only ("done") on round 10. -/
def tenthRoundSuccessScript : Nat → RoundScript := fun i =>
  if i < 9 then RoundScript.stream [toolCallChunk] "EOF"
  else RoundScript.stream [{ role := Role.assistant, content := "done" }] "EOF"

/-- C2 (code bug): when the final (10th) round produces a content-only
answer, the code emits the success response AND then the iteration-limit
error — two terminal events for one turn, with a `TurnError` after the
`TurnDone`: the post-loop `iteration >= maxIterations` check cannot tell a
10th-round success from exhaustion. -/
theorem c2_two_terminals_on_tenth_round_success :
    (processConversation [] tenthRoundSuccessScript [userMessage "q"]).iteration = 10 ∧
    (processConversation [] tenthRoundSuccessScript [userMessage "q"]).events.reverse.take 2 =
      [Event.error iterationLimitMsg, Event.response "done"] := by
  decide

/-- First fragment of an incrementally streamed tool call: the id and name
arrive with the first part of the arguments. -/
def frag1 : ToolCall := ⟨"call_1", "weather_api", "ci"⟩

/-- Second fragment of the same call: the rest of the arguments, no id and
no name. -/
def frag2 : ToolCall := ⟨"", "", "ty=Paris"⟩

/-- A dispatcher with a weather tool that echoes its arguments. -/
def weatherToolMap : Dispatcher :=
  [("weather_api", fun args => Except.ok ("ran with " ++ args))]

/-- A stub adapter streaming one tool call split across two fragments in
round 1 and a content answer in round 2. -/
def fragmentScript : Nat → RoundScript := fun i =>
  if i = 0 then
    RoundScript.stream
      [{ role := Role.assistant, content := "", toolCalls := [frag1] },
       { role := Role.assistant, content := "", toolCalls := [frag2] }] "EOF"
  else RoundScript.stream [{ role := Role.assistant, content := "done" }] "EOF"

/-- C3 counterexample: the two fragments of one call are not merged into one
ToolCall — the appended assistant message carries both entries separately,
and the named entry is executed with only its own partial arguments text
"ci" rather than the merged "city=Paris". -/
theorem c3_counterexample_fragments_not_merged :
    ((processConversation weatherToolMap fragmentScript [userMessage "q"]).messages[1]?).map
        Message.toolCalls = some [frag1, frag2] ∧
    Event.streamChunk (toolStartText "weather_api" "ci") ∈
      (processConversation weatherToolMap fragmentScript [userMessage "q"]).events := by
  decide

/-- C3 (amended): tool-call fragments are not merged by index/id — the
accumulator is the plain concatenation of every chunk's fragment list in
arrival order; at execution a fragment with an empty name is skipped, and a
named fragment runs with exactly the arguments text it itself carried. -/
theorem c3_fragments_concatenated (toolMap : Dispatcher) :
    (∀ cs : List Message,
      (readChunks initReadState cs).allToolCalls = cs.flatMap (fun c => c.toolCalls)) ∧
    (∀ (tc : ToolCall) (rest : List ToolCall), tc.name = "" →
      executeToolCalls toolMap (tc :: rest) = executeToolCalls toolMap rest) ∧
    (∀ (tc : ToolCall) (f : ToolFn), tc.name ≠ "" → toolMap.lookup tc.name = some f →
      (execCall toolMap tc).2.head? =
        some (Event.streamChunk (toolStartText tc.name tc.arguments))) := by
  refine ⟨fun cs => ?_, fun tc rest h => ?_, fun tc f h hf => ?_⟩
  · simpa using readChunks_allToolCalls cs initReadState
  · simp only [executeToolCalls]
    unfold execCall
    rw [if_pos h]
    simp
  · unfold execCall
    rw [if_neg h, hf]
    dsimp only
    cases f tc.arguments
    · rfl
    · rfl

/-- C3 witness: concrete fragments exercise all three amended conclusions. -/
theorem c3_fragments_concatenated_witness :
    executeToolCalls weatherToolMap (frag2 :: [frag1]) =
      executeToolCalls weatherToolMap [frag1] ∧
    (execCall weatherToolMap frag1).2.head? =
      some (Event.streamChunk (toolStartText "weather_api" "ci")) :=
  ⟨(c3_fragments_concatenated weatherToolMap).2.1 frag2 [frag1] rfl,
   (c3_fragments_concatenated weatherToolMap).2.2 frag1 _ (by decide) rfl⟩

/-- The unresolved tool call of the spec's Scenario B. -/
def ghostCall : ToolCall := ⟨"1", "nonexistent_tool", "()"⟩

/-- C6 counterexample: the synthesized failure text is the Chinese
`工具 'nonexistent_tool' 不存在`, not the spec's literal English
"tool 'nonexistent_tool' does not exist". -/
theorem c6_counterexample :
    (executeToolCalls [] [ghostCall]).1 =
      [toolMessage (toolNotExistText "nonexistent_tool") "1" "nonexistent_tool"] ∧
    toolNotExistText "nonexistent_tool" ≠ "tool 'nonexistent_tool' does not exist" := by
  decide

/-- C6 (amended): an unresolved tool call synthesizes a failure Tool message
whose text is `工具 '<name>' 不存在` (the Chinese rendering of "tool '<name>'
does not exist"), emits the matching failure display event, continues with
the remaining calls, and the turn proceeds to another model-stream round
rather than aborting. -/
theorem c6_unresolved_tool (toolMap : Dispatcher) :
    (∀ (tc : ToolCall) (rest : List ToolCall), tc.name ≠ "" →
      toolMap.lookup tc.name = none →
      executeToolCalls toolMap (tc :: rest) =
        (toolMessage (toolNotExistText tc.name) tc.id tc.name ::
            (executeToolCalls toolMap rest).1,
          Event.streamChunk (toolNotExistDisplay tc.name) ::
            (executeToolCalls toolMap rest).2)) ∧
    (∀ (script : Nat → RoundScript) (msgs0 : List Message),
      roundRequestsTool (script 0) = true →
      2 ≤ (processConversation toolMap script msgs0).iteration) := by
  refine ⟨fun tc rest h hf => ?_,
    fun script msgs0 h => processConversation_second_round toolMap script msgs0 h⟩
  simp only [executeToolCalls]
  unfold execCall
  rw [if_neg h, hf]
  simp

/-- C6 witness: the concrete unresolved call produces the synthesized
failure message and event, and a first tool round is followed by a second
model round. -/
theorem c6_unresolved_tool_witness :
    executeToolCalls [] [ghostCall] =
      (toolMessage (toolNotExistText "nonexistent_tool") "1" "nonexistent_tool" ::
          (executeToolCalls [] []).1,
        Event.streamChunk (toolNotExistDisplay "nonexistent_tool") ::
          (executeToolCalls [] []).2) ∧
    2 ≤ (processConversation [] alwaysToolScript [userMessage "q"]).iteration :=
  ⟨(c6_unresolved_tool []).1 ghostCall [] (by decide) rfl,
   (c6_unresolved_tool []).2 alwaysToolScript [userMessage "q"] rfl⟩

/-- C7: a tool whose invocation returns an error yields a failure Tool
message carrying the error text, appended as the call's result while the
remaining calls still run; tool execution never emits an error event, and
the turn proceeds to the next model round instead of terminating. -/
theorem c7_tool_error_recoverable (toolMap : Dispatcher) :
    (∀ (tc : ToolCall) (f : ToolFn) (e : String) (rest : List ToolCall),
      tc.name ≠ "" → toolMap.lookup tc.name = some f → f tc.arguments = Except.error e →
      executeToolCalls toolMap (tc :: rest) =
        (toolMessage (toolFailText e) tc.id tc.name :: (executeToolCalls toolMap rest).1,
          Event.streamChunk (toolStartText tc.name tc.arguments) ::
            Event.streamChunk (toolFailDisplay e) :: (executeToolCalls toolMap rest).2)) ∧
    (∀ (tcs : List ToolCall) (ev : Event), ev ∈ (executeToolCalls toolMap tcs).2 →
      ∃ s, ev = Event.streamChunk s) ∧
    (∀ (script : Nat → RoundScript) (msgs0 : List Message),
      roundRequestsTool (script 0) = true →
      2 ≤ (processConversation toolMap script msgs0).iteration) := by
  refine ⟨fun tc f e rest h hf he => ?_, executeToolCalls_no_error toolMap,
    fun script msgs0 h => processConversation_second_round toolMap script msgs0 h⟩
  simp only [executeToolCalls]
  unfold execCall
  rw [if_neg h, hf]
  dsimp only
  rw [he]
  simp

/-- A dispatcher whose tool always fails. -/
def failToolMap : Dispatcher := [("bash", fun _ => Except.error "exit status 1")]

/-- The failing call. -/
def bashCall : ToolCall := ⟨"1", "bash", "ls"⟩

/-- C7 witness: a concrete failing invocation is absorbed as a failure Tool
message and its display event, and a tool round is followed by a second
model round. -/
theorem c7_tool_error_recoverable_witness :
    executeToolCalls failToolMap [bashCall] =
      (toolMessage (toolFailText "exit status 1") "1" "bash" ::
          (executeToolCalls failToolMap []).1,
        Event.streamChunk (toolStartText "bash" "ls") ::
          Event.streamChunk (toolFailDisplay "exit status 1") ::
            (executeToolCalls failToolMap []).2) ∧
    2 ≤ (processConversation failToolMap alwaysToolScript [userMessage "q"]).iteration :=
  ⟨(c7_tool_error_recoverable failToolMap).1 bashCall
      (fun _ => Except.error "exit status 1") "exit status 1" [] (by decide) rfl rfl,
   (c7_tool_error_recoverable failToolMap).2.2 alwaysToolScript [userMessage "q"] rfl⟩

/-- C8 (amended): tool calls are processed in exactly the order the model
emitted them — the event trace decomposes call by call in list order — and
for every resolved call the invocation display strictly precedes its single
completion or failure event; an unresolved call, however, emits its failure
display with no preceding invocation event. -/
theorem c8_event_order (toolMap : Dispatcher) :
    (∀ tcs : List ToolCall,
      (executeToolCalls toolMap tcs).2 = tcs.flatMap (fun tc => (execCall toolMap tc).2)) ∧
    (∀ (tc : ToolCall) (f : ToolFn), tc.name ≠ "" → toolMap.lookup tc.name = some f →
      ∃ ev, (execCall toolMap tc).2 =
        [Event.streamChunk (toolStartText tc.name tc.arguments), ev]) ∧
    (∀ tc : ToolCall, tc.name ≠ "" → toolMap.lookup tc.name = none →
      (execCall toolMap tc).2 = [Event.streamChunk (toolNotExistDisplay tc.name)]) := by
  refine ⟨executeToolCalls_events toolMap, fun tc f h hf => ?_, fun tc h hf => ?_⟩
  · unfold execCall
    rw [if_neg h, hf]
    dsimp only
    cases f tc.arguments
    · exact ⟨_, rfl⟩
    · exact ⟨_, rfl⟩
  · unfold execCall
    rw [if_neg h, hf]

/-- C8 counterexample: for an unresolved call the only event is the failure
display — its `ToolFailed` event is not preceded by any `ToolInvoked`. -/
theorem c8_counterexample :
    (executeToolCalls [] [ghostCall]).2 =
      [Event.streamChunk (toolNotExistDisplay "nonexistent_tool")] ∧
    Event.streamChunk (toolStartText "nonexistent_tool" "()") ∉
      (executeToolCalls [] [ghostCall]).2 := by
  decide

/-- C8 witness: for a concrete resolved call the invocation display precedes
its single outcome event. -/
theorem c8_event_order_witness :
    ∃ ev, (execCall weatherToolMap frag1).2 =
      [Event.streamChunk (toolStartText "weather_api" "ci"), ev] :=
  (c8_event_order weatherToolMap).2.1 frag1 _ (by decide) rfl

/-- C9 (amended, agent-UI variant): a successful tool result is kept
untruncated in the Tool message appended to History while the display event
carries `displayResult`: the result itself at up to 500 characters, its
first 500 characters plus a truncation marker beyond that. The chat-UI
variant emits the full text (see the counterexample). -/
theorem c9_truncation (toolMap : Dispatcher) :
    (∀ (tc : ToolCall) (f : ToolFn) (r : String) (rest : List ToolCall),
      tc.name ≠ "" → toolMap.lookup tc.name = some f → f tc.arguments = Except.ok r →
      executeToolCalls toolMap (tc :: rest) =
        (toolMessage r tc.id tc.name :: (executeToolCalls toolMap rest).1,
          Event.streamChunk (toolStartText tc.name tc.arguments) ::
            Event.streamChunk (toolOkDisplay (displayResult r)) ::
              (executeToolCalls toolMap rest).2)) ∧
    (∀ r : String, 500 < r.length →
      displayResult r = r.take 500 ++ "...(结果已截断)") ∧
    (∀ r : String, r.length ≤ 500 → displayResult r = r) := by
  refine ⟨fun tc f r rest h hf hr => ?_, fun r h => ?_, fun r h => ?_⟩
  · simp only [executeToolCalls]
    unfold execCall
    rw [if_neg h, hf]
    dsimp only
    rw [hr]
    simp
  · unfold displayResult
    rw [if_pos h]
  · unfold displayResult
    rw [if_neg (by omega)]

/-- A 501-character tool result. -/
def bigResult : String := String.mk (List.replicate 501 'a')

/-- A dispatcher whose tool returns the oversized result. -/
def bigToolMap : Dispatcher := [("reader", fun _ => Except.ok bigResult)]

/-- The call producing the oversized result. -/
def bigCall : ToolCall := ⟨"1", "reader", "f.txt"⟩

set_option maxRecDepth 20000 in
/-- C9 counterexample: the chat-UI variant emits the full 501-character
result unchanged to the sink — no truncation to the 500-character bound. -/
theorem c9_counterexample :
    500 < bigResult.length ∧
    (chatExecuteToolCalls bigToolMap [bigCall]).2 =
      [Event.streamChunk (toolStartText "reader" "f.txt"),
       Event.streamChunk (toolOkDisplay bigResult)] := by
  decide

set_option maxRecDepth 20000 in
/-- C9 witness: the oversized concrete result is kept whole in History but
displayed truncated to 500 characters plus the marker. -/
theorem c9_truncation_witness :
    executeToolCalls bigToolMap [bigCall] =
      (toolMessage bigResult "1" "reader" :: (executeToolCalls bigToolMap []).1,
        Event.streamChunk (toolStartText "reader" "f.txt") ::
          Event.streamChunk (toolOkDisplay (displayResult bigResult)) ::
            (executeToolCalls bigToolMap []).2) ∧
    displayResult bigResult = bigResult.take 500 ++ "...(结果已截断)" :=
  ⟨(c9_truncation bigToolMap).1 bigCall (fun _ => Except.ok bigResult) bigResult []
      (by decide) rfl rfl,
   (c9_truncation bigToolMap).2.1 bigResult (by decide)⟩

end EinoCli
